import Mathlib

/-!
# route53-dyndns: the IP-change monitor, startup reconciliation and Route 53 record

Shallow embedding of `main.go` (ipChecker, lookupHost, the reconciliation block and the
dispatcher loop of `main`) and of `r53/main.go` (getHostedZoneId, Record.Upsert, NewRecord).

Conventions of the embedding:
* a Go `error` is its message (`Option String`, `none` for `nil`);
* a Go function that can end in a run-time panic returns an `Option`, `none` for the panic;
* the goroutine `ipChecker` is a step function over the sequence of things its `select`
  receives (a stop signal or a tick together with what `getIP()` returned on that tick);
* the Route 53 client is the list of requests it has received so far together with the answer
  it gives to the next one.
-/

namespace Route53Dyndns

/-! ## net.IP -/

/-- One byte of a Go byte slice. -/
abbrev Byte := Fin 256

/-- Go `net.IP`, a byte slice. A nil slice and an empty slice are both the empty list (the
program only ever looks at the length and the bytes). -/
abbrev IP := List Byte

/-- The constant `v4InV6Prefix` of package net: the first twelve bytes of an IPv4 address in
its sixteen-byte form. -/
def v4InV6Prefix : List Byte := [0, 0, 0, 0, 0, 0, 0, 0, 0, 0, 0xff, 0xff]

/-- Go `net.IP.Equal`: equal lengths compare bytewise; a four-byte address equals a
sixteen-byte one when the latter is the former behind `v4InV6Prefix`; otherwise false. -/
def IP.Equal (ip x : IP) : Bool :=
  if ip.length = x.length then ip == x
  else if ip.length = 4 ∧ x.length = 16 then
    x.take 12 == v4InV6Prefix && ip == x.drop 12
  else if ip.length = 16 ∧ x.length = 4 then
    ip.take 12 == v4InV6Prefix && ip.drop 12 == x
  else false

/-- Sixteen-byte form of a four-byte address, any other slice unchanged. Used only to state
that `IP.Equal` is an equivalence relation. -/
def IP.canon (ip : IP) : IP :=
  if ip.length = 4 then v4InV6Prefix ++ ip else ip

/-! ## main.go: ipChecker -/

/-- The struct `IpChange`; a `time.Time` is a number. -/
structure IpChange where
  Timestamp : Nat
  OldIP : IP
  NewIP : IP
  deriving DecidableEq, Repr

/-- What one iteration of the `select` in `ipChecker` receives: the stop signal on `done`, or
a tick of the ticker at time `t` together with the two values `getIP()` returned. -/
inductive Input where
  | done
  | tick (t : Nat) (currentIP : IP) (err : Option String)
  deriving DecidableEq, Repr

/-- The goroutine `ipChecker` between two iterations: the variable `initial`, everything sent
on `out` so far, whether the loop is still running and whether `out` has been closed. -/
structure Checker where
  initial : IP
  out : List IpChange
  running : Bool
  closed : Bool
  deriving DecidableEq, Repr

/-- State on entry to the loop of `ipChecker`. -/
def Checker.start (initial : IP) : Checker :=
  { initial := initial, out := [], running := true, closed := false }

/-- One iteration of the loop of `ipChecker`. After the function has returned nothing is
received any more. On `done` the function returns and the deferred `close(out)` runs. -/
def ipCheckerStep (s : Checker) (i : Input) : Checker :=
  if s.running then
    match i with
    | Input.done => { s with running := false, closed := true }
    | Input.tick t currentIP err =>
      match err with
      | some _ => s
      | none =>
        if IP.Equal currentIP s.initial then s
        else
          { s with
            out := s.out ++ [{ Timestamp := t, OldIP := s.initial, NewIP := currentIP }]
            initial := currentIP }
  else s

/-- The loop of `ipChecker` from an arbitrary state. -/
def ipCheckerRun (s : Checker) (inputs : List Input) : Checker :=
  inputs.foldl ipCheckerStep s

/-- The function `ipChecker(initial, out, done)` run on a finite sequence of received inputs. -/
def ipChecker (initial : IP) (inputs : List Input) : Checker :=
  ipCheckerRun (Checker.start initial) inputs

/-- A tick on which `getIP()` succeeded with `ip` at time `t`. -/
def sampleTick (p : Nat × IP) : Input := Input.tick p.1 p.2 none

/-- Number of adjacent pairs of a sequence of addresses that are not `IP.Equal`. -/
def adjacentInequalities : List IP → Nat
  | a :: b :: rest => (if IP.Equal b a then 0 else 1) + adjacentInequalities (b :: rest)
  | _ => 0

/-! ## main.go: lookupHost -/

/-- The package-level error value `MoreThanOneIpErr`. -/
def MoreThanOneIpErr : String := "more than 1 IP found in DNS"

/-- The function `lookupHost(name)`. `LookupIP` is the resolver `net.LookupIP`. The result is
the pair the Go function returns; `none` is the index-out-of-range panic of `ips[0]` on an
empty answer without error. -/
def lookupHost (LookupIP : String → Except String (List IP)) (name : String) :
    Option (IP × Option String) :=
  match LookupIP name with
  | Except.error err => some ([], some err)
  | Except.ok ips =>
    match ips with
    | [] => none
    | ip0 :: rest =>
      if rest.length + 1 > 1 then some (ip0, some MoreThanOneIpErr)
      else some (ip0, none)

/-! ## r53/main.go -/

/-- Go `strings.HasSuffix`. -/
def HasSuffix (s suffix : String) : Bool :=
  suffix.data.isSuffixOf s.data

/-- Worker of `ReplaceAll`: `skip` counts the characters of a match still to be dropped. -/
def replaceAllAux (old new : List Char) : Nat → List Char → List Char
  | _, [] => []
  | skip + 1, _ :: cs => replaceAllAux old new skip cs
  | 0, c :: cs =>
    if old.isPrefixOf (c :: cs) then new ++ replaceAllAux old new (old.length - 1) cs
    else c :: replaceAllAux old new 0 cs

/-- Go `strings.ReplaceAll(s, old, new)` for a non-empty `old`: the non-overlapping
occurrences of `old`, found from left to right, are replaced by `new`. -/
def ReplaceAll (s old new : String) : String :=
  String.mk (replaceAllAux old.data new.data 0 s.data)

/-- The fields of `route53.HostedZone` the program reads, both pointers. -/
structure HostedZone where
  Id : Option String
  Name : Option String
  deriving DecidableEq, Repr

/-- The struct `route53.ResourceRecord`. -/
structure ResourceRecord where
  Value : String
  deriving DecidableEq, Repr

/-- The fields of `route53.ResourceRecordSet` the program sets (all others stay nil);
`Type_` is the field `Type`. -/
structure ResourceRecordSet where
  Name : String
  ResourceRecords : List ResourceRecord
  TTL : Int
  Type_ : String
  deriving DecidableEq, Repr

/-- The struct `route53.Change`. -/
structure Change where
  Action : String
  ResourceRecordSet : ResourceRecordSet
  deriving DecidableEq, Repr

/-- The struct `route53.ChangeBatch`. -/
structure ChangeBatch where
  Changes : List Change
  Comment : String
  deriving DecidableEq, Repr

/-- The struct `route53.ChangeResourceRecordSetsInput`. -/
structure ChangeResourceRecordSetsInput where
  ChangeBatch : ChangeBatch
  HostedZoneId : String
  deriving DecidableEq, Repr

/-- The client `*route53.Route53` as far as the program uses it: what `ListHostedZones`
answers (the error, or the slice `out.HostedZones` of possibly nil pointers), and the error
(or nil) `ChangeResourceRecordSets` answers to a request given the requests received before. -/
structure Route53 where
  ListHostedZones : Except String (List (Option HostedZone))
  ChangeResourceRecordSets :
    List ChangeResourceRecordSetsInput → ChangeResourceRecordSetsInput → Option String

/-- The domain name as `getHostedZoneId` compares it: a dot is appended unless it ends in one. -/
def withTrailingDot (domainName : String) : String :=
  if HasSuffix domainName "." then domainName else domainName ++ "."

/-- The loop of `getHostedZoneId` over `out.HostedZones`, `domainName` already ending in a
dot. `none` is the nil-pointer panic of `*hz.Id`. -/
def findHostedZone (domainName : String) : List (Option HostedZone) → Option (String × Option String)
  | [] => some ("", some ("domain " ++ domainName ++ " not found"))
  | none :: rest => findHostedZone domainName rest
  | some hz :: rest =>
    match hz.Name with
    | none => findHostedZone domainName rest
    | some name =>
      if name = domainName then
        match hz.Id with
        | none => none
        | some id => some (ReplaceAll id "/hostedzone/" "", none)
      else findHostedZone domainName rest

/-- The function `getHostedZoneId(domainName, svc)`. -/
def getHostedZoneId (domainName : String) (svc : Route53) : Option (String × Option String) :=
  match svc.ListHostedZones with
  | Except.error err => some ("", some err)
  | Except.ok zones => findHostedZone (withTrailingDot domainName) zones

/-- The struct `Record`; `svc` is a pointer, nil in the zero value `Record{}`. -/
structure Record where
  FQDN : String
  hostedZoneId : String
  svc : Option Route53

/-- The zero value `Record{}`. -/
def Record.zero : Record := { FQDN := "", hostedZoneId := "", svc := none }

/-- The request `input` that `Record.Upsert` builds. `str` is `net.IP.String`. -/
def Record.upsertInput (str : IP → String) (r : Record) (ip : IP) :
    ChangeResourceRecordSetsInput :=
  { ChangeBatch :=
      { Changes :=
          [{ Action := "UPSERT"
             ResourceRecordSet :=
               { Name := r.FQDN
                 ResourceRecords := [{ Value := str ip }]
                 TTL := 60
                 Type_ := "A" } }]
        Comment := "" }
    HostedZoneId := r.hostedZoneId }

/-- The method `Record.Upsert(ip)`. `requests` are the requests the client has received so
far; the result is the requests received afterwards and the returned error. `none` is the
panic of calling the client through a nil `svc`. -/
def Record.Upsert (str : IP → String) (r : Record) (ip : IP)
    (requests : List ChangeResourceRecordSetsInput) :
    Option (List ChangeResourceRecordSetsInput × Option String) :=
  let input := r.upsertInput str ip
  match r.svc with
  | none => none
  | some svc =>
    match svc.ChangeResourceRecordSets requests input with
    | some err => some (requests ++ [input], some ("cannot upsert " ++ r.FQDN ++ ": " ++ err))
    | none => some (requests ++ [input], none)

/-- The function `NewRecord(hostName, domainName, svc)`. -/
def NewRecord (hostName domainName : String) (svc : Route53) : Option (Record × Option String) :=
  match getHostedZoneId domainName svc with
  | none => none
  | some (_, some err) => some (Record.zero, some ("cannot create 'Record': " ++ err))
  | some (hzi, none) =>
    let fqdn := hostName ++ "." ++ domainName
    let fqdn := if HasSuffix fqdn "." then fqdn else fqdn ++ "."
    some ({ FQDN := fqdn, svc := some svc, hostedZoneId := hzi }, none)

/-! ## main.go: reconciliation at start-up and the dispatcher loop of main -/

/-- What `main` has done to the outside: the requests the Route 53 client has received and
the lines written to the log. -/
structure World where
  requests : List ChangeResourceRecordSetsInput
  log : List String
  deriving DecidableEq, Repr

/-- A call `record.Upsert(ip)` whose returned error is discarded. -/
def upsertIgnoringError (str : IP → String) (record : Record) (ip : IP) (w : World) :
    Option World :=
  match record.Upsert str ip w.requests with
  | none => none
  | some (requests, _) => some { w with requests := requests }

/-- The block of `main` from `publicIp, err := getIP()` up to the start of `ipChecker`.
`getIPResult` are the two values `getIP()` returned. -/
def reconcile (str : IP → String) (LookupIP : String → Except String (List IP))
    (record : Record) (getIPResult : IP × Option String) (w : World) : Option World :=
  let publicIp := getIPResult.1
  match getIPResult.2 with
  | some _ => some w
  | none =>
    match lookupHost LookupIP record.FQDN with
    | none => none
    | some (dnsIp, none) =>
      if !(IP.Equal publicIp dnsIp) then
        upsertIgnoringError str record publicIp
          { w with
            log := w.log ++ [record.FQDN ++ " resolves to " ++ str dnsIp ++
              " but the current systems IP is " ++ str publicIp ++ ". Updating the record.\n"] }
      else some w
    | some (_, some _) =>
      upsertIgnoringError str record publicIp
        { w with
          log := w.log ++ [record.FQDN ++
            " does not exist and will be created pointing to the current public IP (" ++
            str publicIp ++ ") of the system.\n"] }

/-- The loop `for c := range ipChanges` of `main` over the events received until the channel
is closed. -/
def dispatch (str : IP → String) (record : Record) : List IpChange → World → Option World
  | [], w => some w
  | c :: rest, w =>
    let w1 : World :=
      { w with log := w.log ++ ["IP change detected: " ++ str c.OldIP ++ " -> " ++ str c.NewIP ++ "\n"] }
    match record.Upsert str c.NewIP w1.requests with
    | none => none
    | some (requests, some err) =>
      dispatch str record rest { requests := requests, log := w1.log ++ ["ERROR: " ++ err ++ "\n"] }
    | some (requests, none) =>
      dispatch str record rest { requests := requests, log := w1.log }

/-! ## A create-or-replace DNS backend -/

/-- Modelled from the spec: the DNS end-state of the provider, which is not part of the
repository. A record set is identified by hosted zone, name and type, and carries a TTL and
its values; there is at most one record set per identification. -/
abbrev DnsState := String × String × String → Option (Int × List String)

/-- Modelled from the spec: the provider applies one change of a batch to a hosted zone;
UPSERT creates the record set or replaces the one with the same name and type. Other actions
are not used by the program and leave the state as it is. -/
def applyChange (zone : String) (d : DnsState) (c : Change) : DnsState :=
  if c.Action = "UPSERT" then
    Function.update d (zone, c.ResourceRecordSet.Name, c.ResourceRecordSet.Type_)
      (some (c.ResourceRecordSet.TTL, c.ResourceRecordSet.ResourceRecords.map (fun r => r.Value)))
  else d

/-- Modelled from the spec: the provider applies the changes of a request in order. -/
def applyRequest (d : DnsState) (input : ChangeResourceRecordSetsInput) : DnsState :=
  input.ChangeBatch.Changes.foldl (applyChange input.HostedZoneId) d

/-! ## net.IP.String -/

/-- The table `hexDigit` of package net. -/
def hexDigit (n : Nat) : Char := "0123456789abcdef".data.getD n '0'

/-- Go `hexString` of package net: two lower-case hexadecimal digits per byte. -/
def hexString (b : List Byte) : String :=
  String.mk (b.flatMap (fun tn => [hexDigit (tn.val / 16), hexDigit (tn.val % 16)]))

/-- Go `net.IP.To4`: the four bytes of an IPv4 address in either form, nil otherwise. -/
def IP.To4 (ip : IP) : IP :=
  if ip.length = 4 then ip
  else if ip.length = 16 ∧ (ip.take 10).all (fun b => b == 0) = true ∧
      ip.getD 10 0 = 0xff ∧ ip.getD 11 0 = 0xff then ip.drop 12
  else []

/-- Go `appendHex` of package netip: a sixteen-bit group without leading zeros. -/
def appendHex (x : Nat) : List Char :=
  (if x ≥ 0x1000 then [hexDigit (x / 0x1000)] else []) ++
  (if x ≥ 0x100 then [hexDigit (x / 0x100 % 16)] else []) ++
  (if x ≥ 0x10 then [hexDigit (x / 0x10 % 16)] else []) ++
  [hexDigit (x % 16)]

/-- The sixteen-bit group `i` of a sixteen-byte address (`v6u16` of package netip). -/
def v6u16 (ip : IP) (i : Nat) : Nat :=
  (ip.getD (2 * i) 0).val * 256 + (ip.getD (2 * i + 1) 0).val

/-- First loop of `appendTo6` of package netip: start and end of the first longest run of at
least two zero groups, `(255, 255)` when there is none. -/
def longestZeroRun (ip : IP) : Nat × Nat :=
  (List.range 8).foldl
    (fun (z : Nat × Nat) i =>
      let l := (((List.range 8).drop i).takeWhile (fun j => v6u16 ip j == 0)).length
      if l ≥ 2 ∧ l > z.2 - z.1 then (i, i + l) else z)
    (255, 255)

/-- Second loop of `appendTo6`, from group `i`; `fuel` bounds the iterations (eight
suffice, the group index grows on every one). -/
def appendTo6Loop (ip : IP) (zeroStart zeroEnd : Nat) : Nat → Nat → List Char
  | 0, _ => []
  | fuel + 1, i =>
    if i ≥ 8 then []
    else if i = zeroStart then
      [':', ':'] ++
        (if zeroEnd ≥ 8 then []
         else appendHex (v6u16 ip zeroEnd) ++
           appendTo6Loop ip zeroStart zeroEnd fuel (zeroEnd + 1))
    else
      (if i > 0 then [':'] else []) ++ appendHex (v6u16 ip i) ++
        appendTo6Loop ip zeroStart zeroEnd fuel (i + 1)

/-- Go `net.IP.String`: `<nil>` for an empty slice, a question mark and the bytes in
hexadecimal for a length other than four and sixteen, dotted decimal for an IPv4 address in
either form, and the IPv6 text with the longest run of zero groups shortened otherwise. The
theorems take the textual form as a parameter `str`; this is the function the program
passes. -/
def IP.String (ip : IP) : String :=
  if ip.length = 0 then "<nil>"
  else if ip.length ≠ 4 ∧ ip.length ≠ 16 then "?" ++ hexString ip
  else if (IP.To4 ip).length = 4 then
    ".".intercalate ((IP.To4 ip).map (fun b => toString b.val))
  else
    String.mk (appendTo6Loop ip (longestZeroRun ip).1 (longestZeroRun ip).2 8 0)

/-- A tick on which `getIP()` returned an error. -/
def Input.failed : Input → Bool
  | Input.tick _ _ (some _) => true
  | _ => false

/-- The address a chain of events ends in when it starts at `seed`: every event must have as
`OldIP` the `NewIP` of the event before it (the seed for the first one); `none` otherwise. -/
def chainEnd (seed : IP) : List IpChange → Option IP
  | [] => some seed
  | e :: es => if e.OldIP = seed then chainEnd e.NewIP es else none

/-- The zones `getHostedZoneId` stops at: a non-nil zone with a non-nil name equal to
`domainName`. -/
def zoneMatches (domainName : String) : Option HostedZone → Bool
  | some hz => hz.Name == some domainName
  | none => false

/-- Number of adjacent pairs of a sequence of addresses that differ as byte slices. -/
def adjacentDifferences : List IP → Nat
  | a :: b :: rest => (if b = a then 0 else 1) + adjacentDifferences (b :: rest)
  | _ => 0

/-! ## net.IP.Equal is an equivalence relation -/

theorem v4InV6Prefix_length : v4InV6Prefix.length = 12 := rfl

theorem IP.take_drop_iff (a b : IP) (hb : b.length = 16) :
    (b.take 12 = v4InV6Prefix ∧ a = b.drop 12) ↔ b = v4InV6Prefix ++ a := by
  constructor
  · rintro ⟨h1, h2⟩
    rw [← h1, h2, List.take_append_drop]
  · intro h
    subst h
    constructor
    · rw [← v4InV6Prefix_length, List.take_left]
    · rw [← v4InV6Prefix_length, List.drop_left]

theorem IP.canon_of_four {a : IP} (h : a.length = 4) : IP.canon a = v4InV6Prefix ++ a := by
  unfold IP.canon
  rw [if_pos h]

theorem IP.canon_of_not_four {a : IP} (h : ¬ a.length = 4) : IP.canon a = a := by
  unfold IP.canon
  rw [if_neg h]

theorem IP.Equal_iff_canon (a b : IP) : IP.Equal a b = true ↔ IP.canon a = IP.canon b := by
  unfold IP.Equal
  by_cases hlen : a.length = b.length
  · rw [if_pos hlen, beq_iff_eq]
    by_cases h4 : a.length = 4
    · have h4b : b.length = 4 := by omega
      rw [IP.canon_of_four h4, IP.canon_of_four h4b]
      exact (List.append_right_inj _).symm
    · have h4b : ¬ b.length = 4 := by omega
      rw [IP.canon_of_not_four h4, IP.canon_of_not_four h4b]
  · rw [if_neg hlen]
    by_cases h4 : a.length = 4
    · have h4b : ¬ b.length = 4 := by omega
      rw [IP.canon_of_four h4, IP.canon_of_not_four h4b]
      by_cases h16 : b.length = 16
      · rw [if_pos ⟨h4, h16⟩, Bool.and_eq_true, beq_iff_eq, beq_iff_eq, IP.take_drop_iff a b h16]
        exact eq_comm
      · rw [if_neg (fun h => h16 h.2), if_neg (fun h => h4b h.2)]
        constructor
        · intro h; cases h
        · intro h
          have hl := congrArg List.length h
          rw [List.length_append, v4InV6Prefix_length, h4] at hl
          exact absurd hl.symm h16
    · rw [IP.canon_of_not_four h4, if_neg (fun h => h4 h.1)]
      by_cases h4b : b.length = 4
      · rw [IP.canon_of_four h4b]
        by_cases h16 : a.length = 16
        · rw [if_pos ⟨h16, h4b⟩, Bool.and_eq_true, beq_iff_eq, beq_iff_eq]
          rw [← IP.take_drop_iff b a h16]
          constructor
          · rintro ⟨h1, h2⟩; exact ⟨h1, h2.symm⟩
          · rintro ⟨h1, h2⟩; exact ⟨h1, h2.symm⟩
        · rw [if_neg (fun h => h16 h.1)]
          constructor
          · intro h; cases h
          · intro h
            have hl := congrArg List.length h
            rw [List.length_append, v4InV6Prefix_length, h4b] at hl
            exact absurd hl h16
      · rw [IP.canon_of_not_four h4b, if_neg (fun h => h4b h.2)]
        constructor
        · intro h; cases h
        · intro h
          exact absurd (congrArg List.length h) hlen

theorem IP.Equal_refl (a : IP) : IP.Equal a a = true :=
  (IP.Equal_iff_canon a a).2 rfl

theorem IP.Equal_symm {a b : IP} (h : IP.Equal a b = true) : IP.Equal b a = true :=
  (IP.Equal_iff_canon b a).2 ((IP.Equal_iff_canon a b).1 h).symm

theorem IP.Equal_trans {a b c : IP} (h1 : IP.Equal a b = true) (h2 : IP.Equal b c = true) :
    IP.Equal a c = true :=
  (IP.Equal_iff_canon a c).2
    (((IP.Equal_iff_canon a b).1 h1).trans ((IP.Equal_iff_canon b c).1 h2))

/-- Away from four-byte slices (every value of `net.ParseIP` is nil or sixteen bytes long)
`IP.Equal` is equality of the bytes. -/
theorem IP.Equal_iff_eq_of_not_four {a b : IP} (ha : ¬ a.length = 4) (hb : ¬ b.length = 4) :
    IP.Equal a b = true ↔ a = b := by
  rw [IP.Equal_iff_canon, IP.canon_of_not_four ha, IP.canon_of_not_four hb]

/-! ## ipChecker: the loop -/

theorem ipCheckerRun_nil (s : Checker) : ipCheckerRun s [] = s := rfl

theorem ipCheckerRun_cons (s : Checker) (i : Input) (rest : List Input) :
    ipCheckerRun s (i :: rest) = ipCheckerRun (ipCheckerStep s i) rest := rfl

theorem ipCheckerRun_append (s : Checker) (xs ys : List Input) :
    ipCheckerRun s (xs ++ ys) = ipCheckerRun (ipCheckerRun s xs) ys := by
  unfold ipCheckerRun
  rw [List.foldl_append]

theorem ipCheckerStep_stopped {s : Checker} (h : s.running = false) (i : Input) :
    ipCheckerStep s i = s := by
  unfold ipCheckerStep
  rw [if_neg (by rw [h]; exact Bool.false_ne_true)]

theorem ipCheckerRun_stopped {s : Checker} (h : s.running = false) (inputs : List Input) :
    ipCheckerRun s inputs = s := by
  induction inputs with
  | nil => rfl
  | cons i rest ih => rw [ipCheckerRun_cons, ipCheckerStep_stopped h, ih]

theorem ipCheckerStep_done {s : Checker} (h : s.running = true) :
    ipCheckerStep s Input.done = { s with running := false, closed := true } := by
  unfold ipCheckerStep
  rw [if_pos h]

theorem ipCheckerStep_failed (s : Checker) (t : Nat) (ip : IP) (err : String) :
    ipCheckerStep s (Input.tick t ip (some err)) = s := by
  unfold ipCheckerStep
  split <;> rfl

theorem ipCheckerStep_same {s : Checker} {ip : IP} (h : IP.Equal ip s.initial = true) (t : Nat) :
    ipCheckerStep s (Input.tick t ip none) = s := by
  unfold ipCheckerStep
  split
  · simp only [h, if_true]
  · rfl

theorem ipCheckerStep_changed {s : Checker} {ip : IP} (hr : s.running = true)
    (h : IP.Equal ip s.initial = false) (t : Nat) :
    ipCheckerStep s (Input.tick t ip none) =
      { s with
        out := s.out ++ [{ Timestamp := t, OldIP := s.initial, NewIP := ip }]
        initial := ip } := by
  unfold ipCheckerStep
  rw [if_pos hr]
  simp only [h, Bool.false_eq_true, if_false]

/-- A tick never stops the loop and never closes the channel. -/
theorem ipCheckerStep_tick_running (s : Checker) (t : Nat) (ip : IP) (err : Option String) :
    (ipCheckerStep s (Input.tick t ip err)).running = s.running ∧
      (ipCheckerStep s (Input.tick t ip err)).closed = s.closed := by
  cases err with
  | some e => rw [ipCheckerStep_failed]; exact ⟨rfl, rfl⟩
  | none =>
    cases hr : s.running with
    | false => rw [ipCheckerStep_stopped hr, hr]; exact ⟨rfl, rfl⟩
    | true =>
      cases h : IP.Equal ip s.initial with
      | true => rw [ipCheckerStep_same h, hr]; exact ⟨rfl, rfl⟩
      | false => rw [ipCheckerStep_changed hr h]; exact ⟨hr, rfl⟩

/-- Induction along the loop. -/
theorem ipCheckerRun_induction (P : Checker → Prop)
    (hstep : ∀ s i, P s → P (ipCheckerStep s i)) :
    ∀ (inputs : List Input) (s : Checker), P s → P (ipCheckerRun s inputs) := by
  intro inputs
  induction inputs with
  | nil => intro s h; exact h
  | cons i rest ih => intro s h; exact ih _ (hstep s i h)

/-! ## ipChecker: events and adjacent inequalities -/

theorem adjacentInequalities_cons_cons (a b : IP) (rest : List IP) :
    adjacentInequalities (a :: b :: rest) =
      (if IP.Equal b a then 0 else 1) + adjacentInequalities (b :: rest) := rfl

/-- Running successful samples from a running state whose `initial` is `IP.Equal` to the
predecessor `x` of the first sample: the loop keeps running, emits one event per adjacent
inequality, and `initial` stays `IP.Equal` to the last sample. -/
theorem ipCheckerRun_samples (samples : List (Nat × IP)) :
    ∀ (s : Checker) (x : IP), s.running = true → IP.Equal s.initial x = true →
      (ipCheckerRun s (samples.map sampleTick)).running = true ∧
      (ipCheckerRun s (samples.map sampleTick)).out.length =
        s.out.length + adjacentInequalities (x :: samples.map Prod.snd) ∧
      IP.Equal (ipCheckerRun s (samples.map sampleTick)).initial
        ((samples.map Prod.snd).getLastD x) = true := by
  induction samples with
  | nil =>
    intro s x hr hx
    exact ⟨hr, rfl, hx⟩
  | cons p rest ih =>
    intro s x hr hx
    obtain ⟨t, y⟩ := p
    simp only [List.map_cons, ipCheckerRun_cons, sampleTick, adjacentInequalities_cons_cons,
      List.getLastD_cons]
    cases h : IP.Equal y s.initial with
    | true =>
      have hyx : IP.Equal y x = true := IP.Equal_trans h hx
      rw [ipCheckerStep_same h, hyx]
      have := ih s y hr (IP.Equal_symm h)
      simpa [sampleTick] using this
    | false =>
      have hyx : IP.Equal y x = false := by
        cases hyx : IP.Equal y x with
        | false => rfl
        | true =>
          have := IP.Equal_trans hyx (IP.Equal_symm hx)
          rw [h] at this
          exact absurd this Bool.false_ne_true
      rw [ipCheckerStep_changed hr h, hyx]
      have := ih { s with
        out := s.out ++ [{ Timestamp := t, OldIP := s.initial, NewIP := y }]
        initial := y } y hr (IP.Equal_refl y)
      simp only [List.length_append, List.length_singleton, sampleTick] at this
      refine ⟨this.1, ?_, this.2.2⟩
      rw [this.2.1]
      simp only [Bool.false_eq_true, if_false]
      omega

theorem adjacentInequalities_eq_differences :
    ∀ l : List IP, (∀ ip ∈ l, ¬ ip.length = 4) →
      adjacentInequalities l = adjacentDifferences l := by
  intro l
  induction l with
  | nil => intro _; rfl
  | cons a rest ih =>
    intro h
    cases rest with
    | nil => rfl
    | cons b rest2 =>
      have ha : ¬ a.length = 4 := h a (List.mem_cons_self _ _)
      have hb : ¬ b.length = 4 := h b (List.mem_cons_of_mem _ (List.mem_cons_self _ _))
      have hrest := ih (fun ip hip => h ip (List.mem_cons_of_mem _ hip))
      simp only [adjacentInequalities, adjacentDifferences]
      rw [hrest]
      by_cases hba : b = a
      · rw [if_pos hba, if_pos ((IP.Equal_iff_eq_of_not_four hb ha).2 hba)]
      · rw [if_neg hba, if_neg (fun hE => hba ((IP.Equal_iff_eq_of_not_four hb ha).1 hE))]

/-- Claim C1. For every seed and every finite sequence of successfully sampled addresses
(one per tick, no stop signal), the number of events ipChecker emits is the number of
adjacent pairs of seed :: samples that are not equal as IP addresses (net.IP.Equal, the
comparison the code uses); a sample equal to its predecessor emits nothing; and seed 1.2.3.4
with samples 1.2.3.4, 1.2.3.4, 5.6.7.8, 5.6.7.8, 5.6.7.8 gives exactly the one event from
1.2.3.4 to 5.6.7.8, stamped with the time of the third tick. When no address is a four-byte
slice (getIP returns nil or sixteen bytes) the count is also the number of adjacent pairs
that differ as byte slices. -/
theorem ipChecker_event_count (seed : IP) (samples : List (Nat × IP)) :
    (ipChecker seed (samples.map sampleTick)).out.length =
        adjacentInequalities (seed :: samples.map Prod.snd) ∧
      (∀ (t : Nat) (ip : IP), IP.Equal ip ((samples.map Prod.snd).getLastD seed) = true →
        (ipChecker seed ((samples ++ [(t, ip)]).map sampleTick)).out =
          (ipChecker seed (samples.map sampleTick)).out) ∧
      (∀ t1 t2 t3 t4 t5 : Nat,
        (ipChecker [1, 2, 3, 4]
          ([(t1, [1, 2, 3, 4]), (t2, [1, 2, 3, 4]), (t3, [5, 6, 7, 8]), (t4, [5, 6, 7, 8]),
            (t5, [5, 6, 7, 8])].map sampleTick)).out =
          [{ Timestamp := t3, OldIP := [1, 2, 3, 4], NewIP := [5, 6, 7, 8] }]) ∧
      ((∀ ip ∈ seed :: samples.map Prod.snd, ¬ ip.length = 4) →
        (ipChecker seed (samples.map sampleTick)).out.length =
          adjacentDifferences (seed :: samples.map Prod.snd)) := by
  have hrun := ipCheckerRun_samples samples (Checker.start seed) seed rfl (IP.Equal_refl seed)
  have hcount : (ipChecker seed (samples.map sampleTick)).out.length =
      adjacentInequalities (seed :: samples.map Prod.snd) := by
    have := hrun.2.1
    simpa [ipChecker, Checker.start] using this
  refine ⟨hcount, ?_, ?_, ?_⟩
  rotate_right
  · intro h
    rw [hcount, adjacentInequalities_eq_differences _ h]
  · intro t ip hip
    unfold ipChecker
    rw [List.map_append, ipCheckerRun_append]
    simp only [List.map_cons, List.map_nil, ipCheckerRun_cons, ipCheckerRun_nil, sampleTick]
    rw [ipCheckerStep_same (IP.Equal_trans hip (IP.Equal_symm hrun.2.2))]
  · intro t1 t2 t3 t4 t5
    rfl

/-- Worked instance of C1: five samples, two adjacent inequalities, and a repeated sample. -/
theorem ipChecker_event_count_witness :
    (ipChecker [1, 2, 3, 4]
        ([(1, [1, 2, 3, 4]), (2, [5, 6, 7, 8]), (3, [5, 6, 7, 8]), (4, [9, 9, 9, 9])].map
          sampleTick)).out.length = 2 ∧
      IP.Equal [9, 9, 9, 9] [9, 9, 9, 9] = true ∧
      (ipChecker [1, 2, 3, 4]
        ((([(1, [1, 2, 3, 4]), (2, [5, 6, 7, 8]), (3, [5, 6, 7, 8]), (4, [9, 9, 9, 9])] :
          List (Nat × IP)) ++ [(5, [9, 9, 9, 9])]).map sampleTick)).out =
        (ipChecker [1, 2, 3, 4]
          ([(1, [1, 2, 3, 4]), (2, [5, 6, 7, 8]), (3, [5, 6, 7, 8]), (4, [9, 9, 9, 9])].map
            sampleTick)).out :=
  ⟨(ipChecker_event_count [1, 2, 3, 4]
      [(1, [1, 2, 3, 4]), (2, [5, 6, 7, 8]), (3, [5, 6, 7, 8]), (4, [9, 9, 9, 9])]).1.trans
      (by decide),
    by decide,
    (ipChecker_event_count [1, 2, 3, 4]
      [(1, [1, 2, 3, 4]), (2, [5, 6, 7, 8]), (3, [5, 6, 7, 8]), (4, [9, 9, 9, 9])]).2.1 5
      [9, 9, 9, 9] (by decide)⟩

/-! ## ipChecker: the chain of events -/

theorem chainEnd_append_singleton (e : IpChange) :
    ∀ (es : List IpChange) (seed last : IP), chainEnd seed es = some last → e.OldIP = last →
      chainEnd seed (es ++ [e]) = some e.NewIP := by
  intro es
  induction es with
  | nil =>
    intro seed last h he
    simp only [chainEnd, Option.some.injEq] at h
    simp [chainEnd, he, h]
  | cons x rest ih =>
    intro seed last h he
    simp only [chainEnd, List.cons_append] at h ⊢
    by_cases hx : x.OldIP = seed
    · rw [if_pos hx] at h ⊢
      exact ih _ _ h he
    · rw [if_neg hx] at h
      cases h

theorem chainEnd_head {seed last : IP} {es : List IpChange} (h : chainEnd seed es = some last)
    (e : IpChange) (he : es.head? = some e) : e.OldIP = seed := by
  cases es with
  | nil => cases he
  | cons x rest =>
    simp only [List.head?_cons, Option.some.injEq] at he
    subst he
    simp only [chainEnd] at h
    by_cases hx : x.OldIP = seed
    · exact hx
    · rw [if_neg hx] at h
      cases h

theorem chainEnd_adjacent :
    ∀ (es : List IpChange) (seed last : IP), chainEnd seed es = some last →
      ∀ (i : Nat) (a b : IpChange), es[i]? = some a → es[i + 1]? = some b →
        b.OldIP = a.NewIP := by
  intro es
  induction es with
  | nil =>
    intro seed last _ i a b ha _
    simp at ha
  | cons x rest ih =>
    intro seed last h i a b ha hb
    simp only [chainEnd] at h
    by_cases hx : x.OldIP = seed
    · rw [if_pos hx] at h
      cases i with
      | zero =>
        simp only [List.getElem?_cons_zero, Option.some.injEq] at ha
        simp only [zero_add, List.getElem?_cons_succ] at hb
        subst ha
        have hh : rest.head? = some b := by
          rw [List.head?_eq_getElem?]
          exact hb
        exact chainEnd_head h b hh
      | succ j =>
        simp only [List.getElem?_cons_succ] at ha hb
        exact ih _ _ h j a b ha hb
    · rw [if_neg hx] at h
      cases h

/-- The invariant of the loop of `ipChecker`: the events sent so far form a chain from the
seed to the variable `initial`, and every event carries two addresses that are not
`IP.Equal`. -/
theorem ipCheckerStep_invariant (seed : IP) (s : Checker) (i : Input)
    (h : chainEnd seed s.out = some s.initial ∧
      ∀ e ∈ s.out, IP.Equal e.NewIP e.OldIP = false) :
    chainEnd seed (ipCheckerStep s i).out = some (ipCheckerStep s i).initial ∧
      ∀ e ∈ (ipCheckerStep s i).out, IP.Equal e.NewIP e.OldIP = false := by
  cases hr : s.running with
  | false => rw [ipCheckerStep_stopped hr]; exact h
  | true =>
    cases i with
    | done => rw [ipCheckerStep_done hr]; exact h
    | tick t ip err =>
      cases err with
      | some e => rw [ipCheckerStep_failed]; exact h
      | none =>
        cases heq : IP.Equal ip s.initial with
        | true => rw [ipCheckerStep_same heq]; exact h
        | false =>
          rw [ipCheckerStep_changed hr heq]
          refine ⟨chainEnd_append_singleton _ _ _ _ h.1 rfl, ?_⟩
          intro e he
          rcases List.mem_append.1 he with h1 | h1
          · exact h.2 e h1
          · rw [List.mem_singleton] at h1
            subst h1
            exact heq

theorem ipChecker_invariant (seed : IP) (inputs : List Input) :
    chainEnd seed (ipChecker seed inputs).out = some (ipChecker seed inputs).initial ∧
      ∀ e ∈ (ipChecker seed inputs).out, IP.Equal e.NewIP e.OldIP = false :=
  ipCheckerRun_induction
    (fun s => chainEnd seed s.out = some s.initial ∧
      ∀ e ∈ s.out, IP.Equal e.NewIP e.OldIP = false)
    (ipCheckerStep_invariant seed) inputs (Checker.start seed)
    ⟨rfl, fun _ he => absurd he (List.not_mem_nil _)⟩

theorem IP.ne_of_Equal_false {a b : IP} (h : IP.Equal a b = false) : a ≠ b := by
  intro hab
  subst hab
  rw [IP.Equal_refl] at h
  exact absurd h (by decide)

/-- Claim C2. For every seed and every sequence of received inputs (successful samples,
failed lookups, stop signals), the events ipChecker emits are chained: the OldIP of the first
event is the seed, and the OldIP of every later event is the NewIP of the event before it. -/
theorem ipChecker_events_chained (seed : IP) (inputs : List Input) :
    (∀ e : IpChange, (ipChecker seed inputs).out.head? = some e → e.OldIP = seed) ∧
      (∀ (i : Nat) (a b : IpChange), (ipChecker seed inputs).out[i]? = some a →
        (ipChecker seed inputs).out[i + 1]? = some b → b.OldIP = a.NewIP) :=
  ⟨chainEnd_head (ipChecker_invariant seed inputs).1,
    chainEnd_adjacent _ _ _ (ipChecker_invariant seed inputs).1⟩

/-- Worked instance of C2: two events separated by a failed lookup and a repeated sample. -/
theorem ipChecker_events_chained_witness :
    (({ Timestamp := 1, OldIP := [1, 2, 3, 4], NewIP := [5, 6, 7, 8] } : IpChange).OldIP =
        [1, 2, 3, 4]) ∧
      (({ Timestamp := 4, OldIP := [5, 6, 7, 8], NewIP := [9, 9, 9, 9] } : IpChange).OldIP =
        ({ Timestamp := 1, OldIP := [1, 2, 3, 4], NewIP := [5, 6, 7, 8] } : IpChange).NewIP) :=
  ⟨(ipChecker_events_chained [1, 2, 3, 4]
      [Input.tick 1 [5, 6, 7, 8] none, Input.tick 2 [] (some "timeout"),
        Input.tick 3 [5, 6, 7, 8] none, Input.tick 4 [9, 9, 9, 9] none]).1 _ (by decide),
    (ipChecker_events_chained [1, 2, 3, 4]
      [Input.tick 1 [5, 6, 7, 8] none, Input.tick 2 [] (some "timeout"),
        Input.tick 3 [5, 6, 7, 8] none, Input.tick 4 [9, 9, 9, 9] none]).2 0 _ _
      (by decide) (by decide)⟩

/-- Claim C10. For every seed and every sequence of received inputs, every event ipChecker
emits has a NewIP different from its own OldIP, and no two consecutive events have the same
NewIP (different both as IP addresses, by net.IP.Equal, and as byte slices). -/
theorem ipChecker_no_repeated_new_ip (seed : IP) (inputs : List Input) :
    (∀ e ∈ (ipChecker seed inputs).out,
        IP.Equal e.NewIP e.OldIP = false ∧ e.NewIP ≠ e.OldIP) ∧
      (∀ (i : Nat) (a b : IpChange), (ipChecker seed inputs).out[i]? = some a →
        (ipChecker seed inputs).out[i + 1]? = some b →
          IP.Equal b.NewIP a.NewIP = false ∧ b.NewIP ≠ a.NewIP) := by
  have hinv := ipChecker_invariant seed inputs
  have hev : ∀ e ∈ (ipChecker seed inputs).out,
      IP.Equal e.NewIP e.OldIP = false ∧ e.NewIP ≠ e.OldIP :=
    fun e he => ⟨hinv.2 e he, IP.ne_of_Equal_false (hinv.2 e he)⟩
  refine ⟨hev, ?_⟩
  intro i a b ha hb
  have hchain := chainEnd_adjacent _ _ _ hinv.1 i a b ha hb
  have hb_mem : b ∈ (ipChecker seed inputs).out := List.getElem?_mem hb
  have := hev b hb_mem
  rw [hchain] at this
  exact this

/-- Worked instance of C10: the address flips away and back, with a failed lookup between. -/
theorem ipChecker_no_repeated_new_ip_witness :
    (IP.Equal [5, 6, 7, 8] [1, 2, 3, 4] = false ∧ ([5, 6, 7, 8] : IP) ≠ [1, 2, 3, 4]) ∧
      (IP.Equal [1, 2, 3, 4] [5, 6, 7, 8] = false ∧ ([1, 2, 3, 4] : IP) ≠ [5, 6, 7, 8]) :=
  ⟨(ipChecker_no_repeated_new_ip [1, 2, 3, 4]
      [Input.tick 1 [5, 6, 7, 8] none, Input.tick 2 [] (some "timeout"),
        Input.tick 3 [5, 6, 7, 8] none, Input.tick 4 [1, 2, 3, 4] none]).1
      { Timestamp := 1, OldIP := [1, 2, 3, 4], NewIP := [5, 6, 7, 8] } (by decide),
    (ipChecker_no_repeated_new_ip [1, 2, 3, 4]
      [Input.tick 1 [5, 6, 7, 8] none, Input.tick 2 [] (some "timeout"),
        Input.tick 3 [5, 6, 7, 8] none, Input.tick 4 [1, 2, 3, 4] none]).2 0
      { Timestamp := 1, OldIP := [1, 2, 3, 4], NewIP := [5, 6, 7, 8] }
      { Timestamp := 4, OldIP := [5, 6, 7, 8], NewIP := [1, 2, 3, 4] } (by decide) (by decide)⟩

/-! ## ipChecker: failed lookups -/

theorem ipCheckerStep_of_failed {i : Input} (h : i.failed = true) (s : Checker) :
    ipCheckerStep s i = s := by
  cases i with
  | done => cases h
  | tick t ip err =>
    cases err with
    | none => cases h
    | some e => exact ipCheckerStep_failed s t ip e

theorem ipCheckerRun_filter_failed (inputs : List Input) :
    ∀ s : Checker,
      ipCheckerRun s inputs = ipCheckerRun s (inputs.filter (fun i => !i.failed)) := by
  induction inputs with
  | nil => intro s; rfl
  | cons i rest ih =>
    intro s
    cases h : i.failed with
    | true =>
      rw [ipCheckerRun_cons, ipCheckerStep_of_failed h, List.filter_cons_of_neg (by simp [h])]
      exact ih s
    | false =>
      rw [ipCheckerRun_cons, List.filter_cons_of_pos (by simp [h]), ipCheckerRun_cons]
      exact ih _

/-- Claim C5. A tick on which the public-IP lookup failed is transparent to ipChecker: it
leaves the whole state (last known IP, events sent) as it was, so for every seed and every
sequence of received inputs the run is the same as the run on the sequence with the failed
ticks removed, in particular the same (OldIP, NewIP) pairs are emitted, and whatever is
received after a failed tick is handled from the state before it. -/
theorem ipChecker_failed_tick_transparent (seed : IP) (inputs : List Input) :
    (∀ (s : Checker) (t : Nat) (ip : IP) (err : String),
        ipCheckerStep s (Input.tick t ip (some err)) = s) ∧
      ipChecker seed inputs = ipChecker seed (inputs.filter (fun i => !i.failed)) ∧
      (ipChecker seed inputs).out.map (fun e => (e.OldIP, e.NewIP)) =
        (ipChecker seed (inputs.filter (fun i => !i.failed))).out.map
          (fun e => (e.OldIP, e.NewIP)) ∧
      (∀ (s : Checker) (t : Nat) (ip : IP) (err : String) (next : Input),
        ipCheckerStep (ipCheckerStep s (Input.tick t ip (some err))) next =
          ipCheckerStep s next) := by
  have h := ipCheckerRun_filter_failed inputs (Checker.start seed)
  refine ⟨ipCheckerStep_failed, h, ?_, ?_⟩
  · unfold ipChecker
    rw [← h]
  · intro s t ip err next
    rw [ipCheckerStep_failed]

/-! ## ipChecker: the stop signal -/

theorem ipCheckerRun_done_iff (inputs : List Input) :
    ∀ s : Checker, s.running = true → s.closed = false →
      ((ipCheckerRun s inputs).running = true ↔ Input.done ∉ inputs) ∧
      ((ipCheckerRun s inputs).closed = true ↔ Input.done ∈ inputs) := by
  induction inputs with
  | nil =>
    intro s hr hc
    simp [ipCheckerRun_nil, hr, hc]
  | cons i rest ih =>
    intro s hr hc
    rw [ipCheckerRun_cons]
    cases i with
    | done =>
      rw [ipCheckerStep_done hr, ipCheckerRun_stopped rfl]
      simp
    | tick t ip err =>
      have hs := ipCheckerStep_tick_running s t ip err
      have := ih (ipCheckerStep s (Input.tick t ip err)) (hs.1.trans hr) (hs.2.trans hc)
      simpa using this

theorem ipCheckerRun_after_done (s : Checker) (hr : s.running = true) (post : List Input) :
    ipCheckerRun s (Input.done :: post) = { s with running := false, closed := true } := by
  rw [ipCheckerRun_cons, ipCheckerStep_done hr, ipCheckerRun_stopped rfl]

/-- Claim C7. ipChecker as a state machine with the states Running and Stopped: a step
taken in Running leaves Running exactly when the input is the stop signal, so no tick
outcome stops it; over a whole run it is still running exactly when no stop signal was
received, and its output channel is closed exactly when one was; and whatever is received
after the stop signal changes nothing: the events are those emitted before the signal, the
loop is stopped and the channel is closed. -/
theorem ipChecker_stops_only_on_done (seed : IP) (inputs : List Input) :
    (∀ (s : Checker) (i : Input), s.running = true →
        ((ipCheckerStep s i).running = false ↔ i = Input.done)) ∧
      ((ipChecker seed inputs).running = true ↔ Input.done ∉ inputs) ∧
      ((ipChecker seed inputs).closed = true ↔ Input.done ∈ inputs) ∧
      (∀ post : List Input,
        (ipChecker seed (inputs ++ Input.done :: post)).out = (ipChecker seed inputs).out ∧
        (ipChecker seed (inputs ++ Input.done :: post)).running = false ∧
        (ipChecker seed (inputs ++ Input.done :: post)).closed = true) := by
  have hrun := ipCheckerRun_done_iff inputs (Checker.start seed) rfl rfl
  refine ⟨?_, hrun.1, hrun.2, ?_⟩
  · intro s i hr
    cases i with
    | done =>
      rw [ipCheckerStep_done hr]
      simp
    | tick t ip err =>
      rw [(ipCheckerStep_tick_running s t ip err).1, hr]
      simp
  · intro post
    unfold ipChecker
    rw [ipCheckerRun_append]
    cases hr : (ipCheckerRun (Checker.start seed) inputs).running with
    | true =>
      rw [ipCheckerRun_after_done _ hr]
      exact ⟨rfl, rfl, rfl⟩
    | false =>
      rw [ipCheckerRun_stopped hr]
      refine ⟨rfl, hr, ?_⟩
      have h1 : Input.done ∈ inputs := by
        by_contra hn
        have := hrun.1.2 hn
        unfold ipChecker at this
        rw [hr] at this
        exact absurd this Bool.false_ne_true
      exact hrun.2.2 h1

/-- Worked instance of C7: a changed sample in the running state does not stop the loop. -/
theorem ipChecker_stops_only_on_done_witness :
    ((ipCheckerStep (Checker.start [1, 2, 3, 4]) (Input.tick 7 [5, 6, 7, 8] none)).running =
        false ↔ Input.tick 7 [5, 6, 7, 8] none = Input.done) ∧
      (ipCheckerStep (Checker.start [1, 2, 3, 4]) (Input.tick 7 [5, 6, 7, 8] none)).running =
        true :=
  ⟨(ipChecker_stops_only_on_done [1, 2, 3, 4] []).1 (Checker.start [1, 2, 3, 4])
      (Input.tick 7 [5, 6, 7, 8] none) (by decide),
    by decide⟩

/-! ## Reconciliation at start-up -/

/-- A call of `Record.Upsert` through a non-nil client submits the one request
`Record.upsertInput` and returns the client's error wrapped, or nil. -/
theorem Record.Upsert_some (str : IP → String) (fqdn hz : String) (svc : Route53) (ip : IP)
    (requests : List ChangeResourceRecordSetsInput) :
    Record.Upsert str { FQDN := fqdn, hostedZoneId := hz, svc := some svc } ip requests =
      some (requests ++
        [Record.upsertInput str { FQDN := fqdn, hostedZoneId := hz, svc := some svc } ip],
        (svc.ChangeResourceRecordSets requests
          (Record.upsertInput str { FQDN := fqdn, hostedZoneId := hz, svc := some svc } ip)).map
          (fun err => "cannot upsert " ++ fqdn ++ ": " ++ err)) := by
  dsimp only [Record.Upsert]
  cases svc.ChangeResourceRecordSets requests
    (Record.upsertInput str { FQDN := fqdn, hostedZoneId := hz, svc := some svc } ip) <;> rfl

/-- The requests after a call of `Record.Upsert` on any record: none when the record has no
client, otherwise the one request `Record.upsertInput` more. -/
theorem Record.Upsert_requests (str : IP → String) (r : Record) (ip : IP)
    (requests : List ChangeResourceRecordSetsInput) :
    (r.Upsert str ip requests).map Prod.fst =
      r.svc.map (fun _ => requests ++ [r.upsertInput str ip]) := by
  obtain ⟨fqdn, hz, svc⟩ := r
  cases svc with
  | none => rfl
  | some svc =>
    rw [Record.Upsert_some]
    rfl

/-- A record that `NewRecord` returns without error holds the client it was given. -/
theorem NewRecord_svc {hostName domainName : String} {svc : Route53} {r : Record}
    (h : NewRecord hostName domainName svc = some (r, none)) : r.svc = some svc := by
  unfold NewRecord at h
  split at h
  · cases h
  · cases h
  · simp only [Option.some.injEq, Prod.mk.injEq, and_true] at h
    rw [← h]

theorem upsertIgnoringError_requests (str : IP → String) (fqdn hz : String) (svc : Route53)
    (ip : IP) (w : World) :
    (upsertIgnoringError str { FQDN := fqdn, hostedZoneId := hz, svc := some svc } ip w).map
        World.requests =
      some (w.requests ++
        [Record.upsertInput str { FQDN := fqdn, hostedZoneId := hz, svc := some svc } ip]) := by
  unfold upsertIgnoringError
  rw [Record.Upsert_some]
  rfl

/-- What the reconciliation block does with each result of `lookupHost`. -/
theorem reconcile_cases (str : IP → String) (LookupIP : String → Except String (List IP))
    (fqdn hz : String) (svc : Route53) (P : IP) (w : World) :
    (lookupHost LookupIP fqdn = none →
        reconcile str LookupIP { FQDN := fqdn, hostedZoneId := hz, svc := some svc }
          (P, none) w = none) ∧
      (∀ d e, lookupHost LookupIP fqdn = some (d, some e) →
        (reconcile str LookupIP { FQDN := fqdn, hostedZoneId := hz, svc := some svc }
          (P, none) w).map World.requests =
          some (w.requests ++
            [Record.upsertInput str { FQDN := fqdn, hostedZoneId := hz, svc := some svc } P])) ∧
      (∀ d, lookupHost LookupIP fqdn = some (d, none) → IP.Equal P d = false →
        (reconcile str LookupIP { FQDN := fqdn, hostedZoneId := hz, svc := some svc }
          (P, none) w).map World.requests =
          some (w.requests ++
            [Record.upsertInput str { FQDN := fqdn, hostedZoneId := hz, svc := some svc } P])) ∧
      (∀ d, lookupHost LookupIP fqdn = some (d, none) → IP.Equal P d = true →
        reconcile str LookupIP { FQDN := fqdn, hostedZoneId := hz, svc := some svc }
          (P, none) w = some w) := by
  refine ⟨?_, ?_, ?_, ?_⟩
  · intro h
    simp only [reconcile, h]
  · intro d e h
    simp only [reconcile, h]
    exact upsertIgnoringError_requests str fqdn hz svc P _
  · intro d h hne
    simp only [reconcile, h, hne, Bool.not_false, if_true]
    exact upsertIgnoringError_requests str fqdn hz svc P _
  · intro d h heq
    simp only [reconcile, h, heq, Bool.not_true, Bool.false_eq_true, if_false]

theorem lookupHost_error {LookupIP : String → Except String (List IP)} {name err : String}
    (h : LookupIP name = Except.error err) : lookupHost LookupIP name = some ([], some err) := by
  simp only [lookupHost, h]

theorem lookupHost_ambiguous {LookupIP : String → Except String (List IP)} {name : String}
    {first second : IP} {rest : List IP}
    (h : LookupIP name = Except.ok (first :: second :: rest)) :
    lookupHost LookupIP name = some (first, some MoreThanOneIpErr) := by
  simp only [lookupHost, h, List.length_cons]
  rw [if_pos (by omega)]

theorem lookupHost_single {LookupIP : String → Except String (List IP)} {name : String}
    {first : IP} (h : LookupIP name = Except.ok [first]) :
    lookupHost LookupIP name = some (first, none) := by
  simp only [lookupHost, h, List.length_nil]
  rw [if_neg (by omega)]

/-- The reconciliation block in terms of what the resolver answers for the FQDN, the public
IP P fetched successfully: a resolver error gives one Upsert of P; a single address D gives
one Upsert of P when P is not `IP.Equal` to D and nothing when it is; two or more addresses
give one Upsert of P whatever the first address is; an empty answer without error panics. -/
theorem reconcile_by_dns_answer (str : IP → String)
    (LookupIP : String → Except String (List IP)) (fqdn hz : String) (svc : Route53) (P : IP)
    (w : World) :
    (∀ e, LookupIP fqdn = Except.error e →
        (reconcile str LookupIP { FQDN := fqdn, hostedZoneId := hz, svc := some svc }
          (P, none) w).map World.requests =
          some (w.requests ++
            [Record.upsertInput str { FQDN := fqdn, hostedZoneId := hz, svc := some svc } P])) ∧
      (∀ D, LookupIP fqdn = Except.ok [D] → IP.Equal P D = false →
        (reconcile str LookupIP { FQDN := fqdn, hostedZoneId := hz, svc := some svc }
          (P, none) w).map World.requests =
          some (w.requests ++
            [Record.upsertInput str { FQDN := fqdn, hostedZoneId := hz, svc := some svc } P])) ∧
      (∀ D, LookupIP fqdn = Except.ok [D] → IP.Equal P D = true →
        reconcile str LookupIP { FQDN := fqdn, hostedZoneId := hz, svc := some svc }
          (P, none) w = some w) ∧
      (∀ D second rest, LookupIP fqdn = Except.ok (D :: second :: rest) →
        (reconcile str LookupIP { FQDN := fqdn, hostedZoneId := hz, svc := some svc }
          (P, none) w).map World.requests =
          some (w.requests ++
            [Record.upsertInput str { FQDN := fqdn, hostedZoneId := hz, svc := some svc } P])) ∧
      (LookupIP fqdn = Except.ok [] →
        reconcile str LookupIP { FQDN := fqdn, hostedZoneId := hz, svc := some svc }
          (P, none) w = none) := by
  obtain ⟨hpanic, herr, hdiff, hsame⟩ := reconcile_cases str LookupIP fqdn hz svc P w
  refine ⟨?_, ?_, ?_, ?_, ?_⟩
  · intro e he
    exact herr [] e (lookupHost_error he)
  · intro D hD hne
    exact hdiff D (lookupHost_single hD) hne
  · intro D hD heq
    exact hsame D (lookupHost_single hD) heq
  · intro D second rest hD
    exact herr D MoreThanOneIpErr (lookupHost_ambiguous hD)
  · intro h
    exact hpanic (by simp only [lookupHost, h])

/-- Claim C3, the behaviour of the code. The public IP P is 203.0.113.7 in the sixteen-byte
form net.ParseIP returns. When DNS answers the one address 203.0.113.7, D equals P and the
reconciliation block submits nothing. When DNS answers the two addresses 203.0.113.7 and
198.51.100.9, the DNS value D the block is given is again 203.0.113.7, equal to P, and yet it
submits an Upsert of P: Upsert is called although D equals P. -/
theorem reconcile_upserts_although_equal :
    IP.Equal [0, 0, 0, 0, 0, 0, 0, 0, 0, 0, 255, 255, 203, 0, 113, 7] [203, 0, 113, 7] = true ∧
      reconcile IP.String (fun _ => Except.ok [[203, 0, 113, 7]])
          { FQDN := "home.example.com.", hostedZoneId := "Z1",
            svc := some ⟨Except.ok [], fun _ _ => none⟩ }
          ([0, 0, 0, 0, 0, 0, 0, 0, 0, 0, 255, 255, 203, 0, 113, 7], none)
          { requests := [], log := [] } =
        some { requests := [], log := [] } ∧
      lookupHost (fun _ => Except.ok [[203, 0, 113, 7], [198, 51, 100, 9]])
          "home.example.com." =
        some ([203, 0, 113, 7], some MoreThanOneIpErr) ∧
      (reconcile IP.String (fun _ => Except.ok [[203, 0, 113, 7], [198, 51, 100, 9]])
          { FQDN := "home.example.com.", hostedZoneId := "Z1",
            svc := some ⟨Except.ok [], fun _ _ => none⟩ }
          ([0, 0, 0, 0, 0, 0, 0, 0, 0, 0, 255, 255, 203, 0, 113, 7], none)
          { requests := [], log := [] }).map World.requests =
        some
          [{ ChangeBatch :=
               { Changes :=
                   [{ Action := "UPSERT"
                      ResourceRecordSet :=
                        { Name := "home.example.com."
                          ResourceRecords := [{ Value := "203.0.113.7" }]
                          TTL := 60
                          Type_ := "A" } }]
                 Comment := "" }
             HostedZoneId := "Z1" }] := by
  refine ⟨by decide, by decide, by decide, by decide⟩

/-- Claim C4, the behaviour of the code. DNS answers two addresses, 1.2.3.4 and 5.6.7.8, and
the public IP is 1.2.3.4: lookupHost returns the first address together with the ambiguity
error, the first address equals the public IP, and the reconciliation block nevertheless
submits an Upsert of the public IP, logging that the record does not exist. -/
theorem reconcile_ambiguous_upserts :
    lookupHost (fun _ => Except.ok [[1, 2, 3, 4], [5, 6, 7, 8]]) "home.example.com." =
        some ([1, 2, 3, 4], some MoreThanOneIpErr) ∧
      IP.Equal [1, 2, 3, 4] [1, 2, 3, 4] = true ∧
      reconcile IP.String (fun _ => Except.ok [[1, 2, 3, 4], [5, 6, 7, 8]])
          { FQDN := "home.example.com.", hostedZoneId := "Z1",
            svc := some ⟨Except.ok [], fun _ _ => none⟩ }
          ([1, 2, 3, 4], none) { requests := [], log := [] } =
        some
          { requests :=
              [{ ChangeBatch :=
                   { Changes :=
                       [{ Action := "UPSERT"
                          ResourceRecordSet :=
                            { Name := "home.example.com."
                              ResourceRecords := [{ Value := "1.2.3.4" }]
                              TTL := 60
                              Type_ := "A" } }]
                     Comment := "" }
                 HostedZoneId := "Z1" }]
            log :=
              ["home.example.com. does not exist and will be created pointing to the " ++
                "current public IP (1.2.3.4) of the system.\n"] } := by
  refine ⟨by decide, by decide, by decide⟩

/-- For every ambiguous answer of the resolver the reconciliation block submits the Upsert
of the public IP, whatever the first address is. -/
theorem reconcile_ambiguous_always (str : IP → String)
    (LookupIP : String → Except String (List IP)) (fqdn hz : String) (svc : Route53)
    (P first second : IP) (rest : List IP) (w : World)
    (h : LookupIP fqdn = Except.ok (first :: second :: rest)) :
    (reconcile str LookupIP { FQDN := fqdn, hostedZoneId := hz, svc := some svc }
        (P, none) w).map World.requests =
      some (w.requests ++
        [Record.upsertInput str { FQDN := fqdn, hostedZoneId := hz, svc := some svc } P]) :=
  (reconcile_cases str LookupIP fqdn hz svc P w).2.1 first MoreThanOneIpErr
    (lookupHost_ambiguous h)

/-! ## The dispatcher loop -/

/-- Claim C6. The dispatcher loop of main consumes every event received before the channel
is closed: for every sequence of events and every behaviour of the Route 53 client
(any pattern of successes and failures), the loop runs to the end and the requests the
client received are, in the order of the events, exactly one Upsert request per event,
carrying that event's NewIP; a failed Upsert only adds a line to the log. -/
theorem dispatch_upserts_every_event (str : IP → String) (fqdn hz : String) (svc : Route53)
    (events : List IpChange) (w : World) :
    ∃ after : World,
      dispatch str { FQDN := fqdn, hostedZoneId := hz, svc := some svc } events w =
        some after ∧
      after.requests =
        w.requests ++ events.map (fun c =>
          ({ ChangeBatch :=
               { Changes :=
                   [{ Action := "UPSERT"
                      ResourceRecordSet :=
                        { Name := fqdn
                          ResourceRecords := [{ Value := str c.NewIP }]
                          TTL := 60
                          Type_ := "A" } }]
                 Comment := "" }
             HostedZoneId := hz } : ChangeResourceRecordSetsInput)) := by
  induction events generalizing w with
  | nil => exact ⟨w, rfl, by simp⟩
  | cons c rest ih =>
    simp only [dispatch]
    rw [Record.Upsert_some]
    cases svc.ChangeResourceRecordSets w.requests
      (Record.upsertInput str { FQDN := fqdn, hostedZoneId := hz, svc := some svc } c.NewIP) with
    | none =>
      obtain ⟨after, h1, h2⟩ := ih
        { requests := w.requests ++
            [Record.upsertInput str { FQDN := fqdn, hostedZoneId := hz, svc := some svc }
              c.NewIP],
          log := w.log ++
            ["IP change detected: " ++ str c.OldIP ++ " -> " ++ str c.NewIP ++ "\n"] }
      refine ⟨after, h1, ?_⟩
      rw [h2]
      simp [Record.upsertInput]
    | some err =>
      obtain ⟨after, h1, h2⟩ := ih
        { requests := w.requests ++
            [Record.upsertInput str { FQDN := fqdn, hostedZoneId := hz, svc := some svc }
              c.NewIP],
          log := w.log ++
            ["IP change detected: " ++ str c.OldIP ++ " -> " ++ str c.NewIP ++ "\n"] ++
            ["ERROR: " ++ ("cannot upsert " ++ fqdn ++ ": " ++ err) ++ "\n"] }
      refine ⟨after, h1, ?_⟩
      rw [h2]
      simp [Record.upsertInput]

/-! ## Zone resolution -/

/-- The loop of `getHostedZoneId` in terms of the first zone it stops at. -/
theorem findHostedZone_eq (domainName : String) (zones : List (Option HostedZone)) :
    findHostedZone domainName zones =
      match zones.find? (zoneMatches domainName) with
      | some (some hz) => hz.Id.map (fun id => (ReplaceAll id "/hostedzone/" "", none))
      | _ => some ("", some ("domain " ++ domainName ++ " not found")) := by
  induction zones with
  | nil => rfl
  | cons z rest ih =>
    cases z with
    | none =>
      rw [List.find?_cons_of_neg _ (by simp [zoneMatches])]
      simp only [findHostedZone]
      exact ih
    | some hz =>
      cases hn : hz.Name with
      | none =>
        rw [List.find?_cons_of_neg _ (by simp [zoneMatches, hn])]
        simp only [findHostedZone, hn]
        exact ih
      | some name =>
        by_cases hname : name = domainName
        · rw [List.find?_cons_of_pos _ (by simp [zoneMatches, hn, hname])]
          simp only [findHostedZone, hn, hname, if_true]
          cases hz.Id <;> rfl
        · rw [List.find?_cons_of_neg _ (by simp [zoneMatches, hn, hname])]
          simp only [findHostedZone, hn, hname, if_false]
          exact ih

theorem find_zoneMatches_ne_some_none (domainName : String)
    (zones : List (Option HostedZone)) : zones.find? (zoneMatches domainName) ≠ some none := by
  intro h
  have := List.find?_some h
  simp [zoneMatches] at this

/-- Zone resolution on every list of hosted zones the backend returns: getHostedZoneId fails
with the not-found error exactly when the list holds no non-nil zone with a non-nil name
equal to the domain name with a trailing dot added when missing; it returns no other error;
NewRecord then fails and returns the zero Record; and when the first such zone has an Id, the
result is that Id with every occurrence of /hostedzone/ removed. -/
theorem getHostedZoneId_not_found_iff (domainName : String)
    (zones : List (Option HostedZone))
    (change : List ChangeResourceRecordSetsInput → ChangeResourceRecordSetsInput →
      Option String) :
    (getHostedZoneId domainName ⟨Except.ok zones, change⟩ =
        some ("", some ("domain " ++ withTrailingDot domainName ++ " not found")) ↔
      zones.find? (zoneMatches (withTrailingDot domainName)) = none) ∧
      (∀ v err, getHostedZoneId domainName ⟨Except.ok zones, change⟩ = some (v, some err) →
        zones.find? (zoneMatches (withTrailingDot domainName)) = none) ∧
      (zones.find? (zoneMatches (withTrailingDot domainName)) = none →
        ∀ hostName, NewRecord hostName domainName ⟨Except.ok zones, change⟩ =
          some (Record.zero, some ("cannot create 'Record': " ++
            ("domain " ++ withTrailingDot domainName ++ " not found")))) ∧
      (∀ hz id, zones.find? (zoneMatches (withTrailingDot domainName)) = some (some hz) →
        hz.Id = some id →
        getHostedZoneId domainName ⟨Except.ok zones, change⟩ =
          some (ReplaceAll id "/hostedzone/" "", none)) := by
  have hget : getHostedZoneId domainName ⟨Except.ok zones, change⟩ =
      findHostedZone (withTrailingDot domainName) zones := rfl
  have heq := findHostedZone_eq (withTrailingDot domainName) zones
  have hnone := find_zoneMatches_ne_some_none (withTrailingDot domainName) zones
  cases hf : zones.find? (zoneMatches (withTrailingDot domainName)) with
  | none =>
    rw [hf] at heq
    simp only at heq
    refine ⟨⟨fun _ => rfl, fun _ => hget.trans heq⟩, fun _ _ _ => rfl, ?_, ?_⟩
    · intro _ hostName
      simp only [NewRecord, hget, heq]
    · intro hz id h
      cases h
  | some z =>
    cases z with
    | none => exact absurd hf hnone
    | some hz =>
      rw [hf] at heq
      simp only at heq
      rw [hget, heq]
      refine ⟨⟨?_, (fun h => by cases h)⟩, ?_, (fun h => by cases h), ?_⟩
      · intro h
        cases hid : hz.Id with
        | none => rw [hid] at h; cases h
        | some id =>
          rw [hid] at h
          have h2 := (Prod.mk.inj (Option.some.inj h)).2
          cases h2
      · intro v err h
        cases hid : hz.Id with
        | none => rw [hid] at h; cases h
        | some id =>
          rw [hid] at h
          have h2 := (Prod.mk.inj (Option.some.inj h)).2
          cases h2
      · intro hz2 id h hid
        cases h
        rw [hid]
        rfl

/-- Claim C8, the behaviour of the code. The backend returns the one zone named
example.com. whose Id pointer is nil. A zone with the wanted name exists, so the result
should be its Id; the loop, which guards the zone and its name against nil, dereferences the
Id unguarded: getHostedZoneId panics, and so does NewRecord, returning neither the not-found
error nor an Id. With an Id on the same zone the result is the Id without /hostedzone/. -/
theorem getHostedZoneId_nil_id_panics :
    [some ({ Id := none, Name := some "example.com." } : HostedZone)].find?
        (zoneMatches (withTrailingDot "example.com")) =
      some (some { Id := none, Name := some "example.com." }) ∧
      getHostedZoneId "example.com"
          ⟨Except.ok [some { Id := none, Name := some "example.com." }], fun _ _ => none⟩ =
        none ∧
      (NewRecord "home" "example.com"
          ⟨Except.ok [some { Id := none, Name := some "example.com." }],
            fun _ _ => none⟩).isNone = true ∧
      getHostedZoneId "example.com"
          ⟨Except.ok [some { Id := some "/hostedzone/Z1", Name := some "example.com." }],
            fun _ _ => none⟩ =
        some ("Z1", none) := by
  refine ⟨by decide, by decide, by decide, by decide⟩

/-! ## Upsert -/

/-- The create-or-replace backend applied to the request of `Record.Upsert`: the record set
identified by zone, name and type A is set to TTL 60 and the one value. -/
theorem applyRequest_upsertInput (str : IP → String) (r : Record) (ip : IP) (d : DnsState) :
    applyRequest d (r.upsertInput str ip) =
      Function.update d (r.hostedZoneId, r.FQDN, "A") (some (60, [str ip])) := by
  simp [applyRequest, applyChange, Record.upsertInput]

/-- Claim C9. Record.Upsert is idempotent: for every record and every IP, the call submits
(unless the record has no client, when it submits nothing) one request, built from FQDN,
hosted zone id and IP alone: a single UPSERT of one type-A record set named FQDN with TTL 60
and exactly one value, the textual form of the IP; a second Upsert of the same IP submits
the same request again; and on a create-or-replace backend the DNS state after both requests
is the state after the first, with one record set for (zone, FQDN, A), of TTL 60 and that one
value, and every other record set untouched. -/
theorem upsert_idempotent (str : IP → String) (r : Record) (ip : IP)
    (requests : List ChangeResourceRecordSetsInput) (d : DnsState) :
    r.upsertInput str ip =
        { ChangeBatch :=
            { Changes :=
                [{ Action := "UPSERT"
                   ResourceRecordSet :=
                     { Name := r.FQDN
                       ResourceRecords := [{ Value := str ip }]
                       TTL := 60
                       Type_ := "A" } }]
              Comment := "" }
          HostedZoneId := r.hostedZoneId } ∧
      (r.Upsert str ip requests).map Prod.fst =
        r.svc.map (fun _ => requests ++ [r.upsertInput str ip]) ∧
      (r.Upsert str ip (requests ++ [r.upsertInput str ip])).map Prod.fst =
        r.svc.map (fun _ => requests ++ [r.upsertInput str ip] ++ [r.upsertInput str ip]) ∧
      (requests ++ [r.upsertInput str ip] ++ [r.upsertInput str ip]).foldl applyRequest d =
        (requests ++ [r.upsertInput str ip]).foldl applyRequest d ∧
      ((requests ++ [r.upsertInput str ip]).foldl applyRequest d)
          (r.hostedZoneId, r.FQDN, "A") = some (60, [str ip]) ∧
      (∀ key : String × String × String, key ≠ (r.hostedZoneId, r.FQDN, "A") →
        ((requests ++ [r.upsertInput str ip]).foldl applyRequest d) key =
          (requests.foldl applyRequest d) key) := by
  refine ⟨rfl, Record.Upsert_requests str r ip requests,
    Record.Upsert_requests str r ip _, ?_, ?_, ?_⟩
  · simp only [List.foldl_append, List.foldl_cons, List.foldl_nil, applyRequest_upsertInput,
      Function.update_idem]
  · simp only [List.foldl_append, List.foldl_cons, List.foldl_nil, applyRequest_upsertInput,
      Function.update_same]
  · intro key hkey
    simp only [List.foldl_append, List.foldl_cons, List.foldl_nil, applyRequest_upsertInput]
    exact Function.update_noteq hkey _ _

/-- Worked instance of C9: a record set other than the upserted one is left as it was. -/
theorem upsert_idempotent_witness :
    (([] ++
        [Record.upsertInput IP.String
          { FQDN := "home.example.com.", hostedZoneId := "Z1",
            svc := some ⟨Except.ok [], fun _ _ => some "throttled"⟩ } [1, 2, 3, 4]]).foldl
        applyRequest (fun _ => some (300, ["9.9.9.9"]))) ("Z1", "www.example.com.", "A") =
      (([] : List ChangeResourceRecordSetsInput).foldl applyRequest
        (fun _ => some (300, ["9.9.9.9"]))) ("Z1", "www.example.com.", "A") :=
  (upsert_idempotent IP.String
    { FQDN := "home.example.com.", hostedZoneId := "Z1",
      svc := some ⟨Except.ok [], fun _ _ => some "throttled"⟩ } [1, 2, 3, 4] []
    (fun _ => some (300, ["9.9.9.9"]))).2.2.2.2.2 ("Z1", "www.example.com.", "A") (by decide)

end Route53Dyndns
